import Mathlib

/-!
# Verification of `sync_spotify.py`

A shallow embedding of the repository's single source file `sync_spotify.py`
into Lean 4, together with theorems settling the specification claims.

Strings are modelled as `List Char`.  Python's `re` whitespace class `\s` and
`str.strip` are modelled by the ASCII whitespace characters (the inputs of
interest are ASCII).  External collaborators — the `spotdl` sync tool, the
`ffmpeg` strip tool and the two remote name-resolution tiers — are opaque in
the source and are modelled as oracle parameters.  The process state touched
by the script (current working directory, directory set, file contents) is an
explicit `World`/file-map value threaded through the functions.
-/

namespace SyncSpotify

/-- ASCII whitespace, modelling Python's `\s` / `str.strip` on ASCII input:
space, tab, newline, vertical tab, form feed, carriage return. -/
def isSpaceChar (c : Char) : Bool :=
  c == ' ' || c == '\t' || c == '\n' || c == '\x0b' || c == '\x0c' || c == '\r'

/-- The character class removed by `sanitize_filename`'s first substitution,
`[<>:"/\\|?*\x00-\x1f]`: reserved filesystem characters and control
characters. -/
def isBadChar (c : Char) : Bool :=
  c == '<' || c == '>' || c == ':' || c == '"' || c == '/' || c == '\\' ||
  c == '|' || c == '?' || c == '*' || decide (c.toNat ≤ 0x1f)

/-- Python `str.strip()`: drop whitespace from both ends. -/
def pyStrip (l : List Char) : List Char :=
  List.rdropWhile isSpaceChar (l.dropWhile isSpaceChar)

/-- `re.sub(r'\s+', ' ', s)`: replace every maximal run of whitespace by a
single space. -/
def collapseWS : List Char → List Char
  | [] => []
  | [c] => if isSpaceChar c then [' '] else [c]
  | c :: d :: rest =>
    if isSpaceChar c && isSpaceChar d then collapseWS (d :: rest)
    else (if isSpaceChar c then ' ' else c) :: collapseWS (d :: rest)

/-- `sanitize_filename(s, max_len=200)` from `sync_spotify.py`:
strip, remove disallowed filesystem/control characters, collapse whitespace
runs, strip again, truncate to `max_len`, and fall back to `"Playlist"` when
the result is empty (`s[:max_len] or "Playlist"`). -/
def sanitize_filename (s : List Char) (max_len : Nat := 200) : List Char :=
  let s1 := pyStrip s
  let s2 := s1.filter (fun c => !isBadChar c)
  let s3 := pyStrip (collapseWS s2)
  let r := s3.take max_len
  if r.isEmpty then "Playlist".toList else r

/-- ASCII alphanumeric, the regex class `[A-Za-z0-9]`. -/
def isAlnum (c : Char) : Bool :=
  ('A' ≤ c && c ≤ 'Z') || ('a' ≤ c && c ≤ 'z') || ('0' ≤ c && c ≤ '9')

/-- Try to match one literal pattern at the head of `l`, followed by a
greedy non-empty run of `[A-Za-z0-9]` (the capture group); return the
captured run. -/
def matchGroupAfter (pat l : List Char) : Option (List Char) :=
  if pat.isPrefixOf l then
    let g := (l.drop pat.length).takeWhile isAlnum
    if g.isEmpty then none else some g
  else none

/-- Try each literal alternative of a pattern at the current position. -/
def tryPatsAt : List (List Char) → List Char → Option (List Char)
  | [], _ => none
  | p :: ps, l =>
    match matchGroupAfter p l with
    | some g => some g
    | none => tryPatsAt ps l

/-- `re.search` for a pattern of the shape `<literal>([A-Za-z0-9]+)` with a
list of literal alternatives: scan left to right, first position where an
alternative matches wins, the group is the maximal alphanumeric run. -/
def reSearchGroup (pats : List (List Char)) : List Char → Option (List Char)
  | [] => none
  | c :: rest =>
    match tryPatsAt pats (c :: rest) with
    | some g => some g
    | none => reSearchGroup pats rest

/-- `extract_playlist_id(url_or_id)` from `sync_spotify.py`:
`re.search(r"playlist[/:]([A-Za-z0-9]+)")`, then
`re.search(r"open\.spotify\.com/playlist/([A-Za-z0-9]+)")`, then
`re.fullmatch(r"[A-Za-z0-9]+")` (both of whose branches return the input),
else the input verbatim. -/
def extract_playlist_id (url_or_id : List Char) : List Char :=
  match reSearchGroup ["playlist/".toList, "playlist:".toList] url_or_id with
  | some g => g
  | none =>
    match reSearchGroup ["open.spotify.com/playlist/".toList] url_or_id with
    | some g => g
    | none =>
      if !url_or_id.isEmpty && url_or_id.all isAlnum then url_or_id
      else url_or_id

/-- Python truthiness of an optional string (`if name:`): `None` and the
empty string are falsy. -/
def truthy : Option (List Char) → Bool
  | none => false
  | some s => !s.isEmpty

/-- `resolve_playlist_name(url_or_id)` from `sync_spotify.py`.  The two
remote tiers (`get_name_via_spotify_api`, `get_name_via_scrape`) are opaque
network calls in the source and are passed as oracles returning `none` on
any failure (the source swallows every exception into `None`). -/
def resolve_playlist_name (api scrape : List Char → Option (List Char))
    (url_or_id : List Char) : List Char :=
  let pid := extract_playlist_id url_or_id
  let name1 := api pid
  if truthy name1 then sanitize_filename (name1.getD [])
  else
    let name2 := scrape pid
    if truthy name2 then sanitize_filename (name2.getD [])
    else sanitize_filename pid

/-- The save-file name built in `run_spotdl_sync_into_folder`:
`save_name = f"{playlist_name}.spotdl"` followed by
`if not save_name.endswith(".spotdl"): save_name += ".spotdl"`. -/
def make_save_name (playlist_name : List Char) : List Char :=
  let save_name := playlist_name ++ ".spotdl".toList
  if !(".spotdl".toList.isSuffixOf save_name) then save_name ++ ".spotdl".toList
  else save_name

/-- `playlist_url.split("?", 1)[0]`: everything before the first `?`. -/
def cleanUrl (u : List Char) : List Char := u.takeWhile (fun c => !(c == '?'))

/-- A filesystem path, as its list of components. -/
abbrev Path := List (List Char)

/-- `Path(folder).mkdir(parents=True, exist_ok=True)`: the folder and every
one of its non-empty ancestor prefixes now exist. -/
def mkdirParents (p : Path) (dirs : List Path) : List Path :=
  ((List.range p.length).map (fun i => p.take (i + 1))) ++ dirs

/-- Exceptions escaping a `subprocess.run(..., check=True)` call:
`CalledProcessError` for a non-zero exit status, or any other exception. -/
inductive SyncExn
  | calledProcessError (code : Nat)
  | other
deriving DecidableEq, Repr

/-- A file is addressed by its directory and its name within it. -/
abbrev FileKey := Path × List Char

/-- The file store: an association of file keys to contents. -/
abbrev Files := List (FileKey × List Char)

/-- Process/filesystem state threaded through the script. -/
structure World where
  cwd : Path
  dirs : List Path
  files : Files
deriving DecidableEq, Repr

/-- `run_spotdl_sync_into_folder(playlist_url, folder, playlist_name,
dry_run)` from `sync_spotify.py`.  The `spotdl` invocation is the opaque
oracle `spotdl clean_url save_name`; `none` models a zero exit status and
`some e` models the exception `e` raised by `subprocess.run(check=True)`.
The `try`/`finally` is modelled by restoring `cwd` on the result of the body,
whichever branch produced it. -/
def run_spotdl_sync_into_folder
    (spotdl : List Char → List Char → Option SyncExn)
    (playlist_url : List Char) (folder : Path) (playlist_name : List Char)
    (dry_run : Bool) (w : World) : Except SyncExn Unit × World :=
  let clean_url := cleanUrl playlist_url
  let w1 : World := { w with dirs := mkdirParents folder w.dirs }
  let orig_cwd := w1.cwd
  let body : Except SyncExn Unit × World :=
    let w2 : World := { w1 with cwd := folder }
    let save_name := make_save_name playlist_name
    if dry_run then (Except.ok (), w2)
    else
      match spotdl clean_url save_name with
      | none => (Except.ok (), w2)
      | some e => (Except.error e, w2)
  (body.1, { body.2 with cwd := orig_cwd })

/-- Look up a file's contents. -/
def lookupFile (k : FileKey) (fs : Files) : Option (List Char) :=
  (fs.find? (fun e => decide (e.1 = k))).map (fun e => e.2)

/-- Delete a file (no error if absent), as `os.remove` guarded by
`os.path.exists`. -/
def removeFile (k : FileKey) (fs : Files) : Files :=
  fs.filter (fun e => decide (e.1 ≠ k))

/-- Create or overwrite a file. -/
def setFile (k : FileKey) (v : List Char) (fs : Files) : Files :=
  (k, v) :: removeFile k fs

/-- `shutil.move(src, dst)`: on an existing source, the destination is
replaced by the source's contents and the source no longer exists. -/
def moveFile (src dst : FileKey) (fs : Files) : Files :=
  match lookupFile src fs with
  | none => fs
  | some v => setFile dst v (removeFile src fs)

/-- Result of one `ffmpeg` invocation writing to `tmp`:
`success out` is a zero exit status having written `out` to the temporary
path; `failure leftover` is a non-zero exit status (raising
`CalledProcessError`), having written a partial temporary output when
`leftover = some _` and nothing when `leftover = none`. -/
inductive FfmpegResult
  | success (out : List Char)
  | failure (leftover : Option (List Char))
deriving DecidableEq, Repr

/-- The temporary path `full + ".tmp.mp3"`. -/
def tmpKey (k : FileKey) : FileKey := (k.1, k.2 ++ ".tmp.mp3".toList)

/-- `f.lower().endswith(".mp3")`. -/
def lowerEndsWithMp3 (fname : List Char) : Bool :=
  ".mp3".toList.isSuffixOf (fname.map Char.toLower)

/-- The body of the per-file loop of `strip_mp3_metadata_in_folder` for one
`.mp3` file: run `ffmpeg` into the temporary path; on success
`shutil.move(tmp, full)`; on `CalledProcessError` remove the temporary file
if it exists and leave the original unchanged. -/
def processMp3File (ffmpeg : FileKey → FfmpegResult) (k : FileKey)
    (fs : Files) : Files :=
  let tmp := tmpKey k
  match ffmpeg k with
  | FfmpegResult.success out => moveFile tmp k (setFile tmp out fs)
  | FfmpegResult.failure leftover =>
    let fs1 := match leftover with
      | some c => setFile tmp c fs
      | none => fs
    removeFile tmp fs1

/-- The files visited by `os.walk(folder)`, modelled as the snapshot of the
store's entries lying under `folder`, in store order. -/
def walkFiles (folder : Path) (fs : Files) : List FileKey :=
  (fs.filter (fun e => folder.isPrefixOf e.1.1)).map (fun e => e.1)

/-- `strip_mp3_metadata_in_folder(folder, ffmpeg_cmd, dry_run)` from
`sync_spotify.py`: in dry-run do nothing, otherwise process every file under
`folder` whose lower-cased name ends in `.mp3`. -/
def strip_mp3_metadata_in_folder (ffmpeg : FileKey → FfmpegResult)
    (folder : Path) (dry_run : Bool) (fs : Files) : Files :=
  if dry_run then fs
  else
    (walkFiles folder fs).foldl
      (fun acc k => if lowerEndsWithMp3 k.2 then processMp3File ffmpeg k acc
                    else acc) fs

/-- A JSON scalar from the spotDL config, with Python truthiness for the
`bool(...)` coercion applied to `cfg["post_strip"]`. -/
inductive JsonVal
  | jnull
  | jbool (b : Bool)
  | jnum (n : Int)
  | jstr (s : List Char)
deriving DecidableEq, Repr

/-- Python `bool(v)` on a JSON scalar. -/
def JsonVal.toBool : JsonVal → Bool
  | JsonVal.jnull => false
  | JsonVal.jbool b => b
  | JsonVal.jnum n => decide (n ≠ 0)
  | JsonVal.jstr s => !s.isEmpty

/-- The post-processing decision in `main`:
`do_post_strip = not args.no_strip`, then
`if "post_strip" in cfg: do_post_strip = bool(cfg["post_strip"])`.
The config is the association list of its entries. -/
def decide_post_strip (no_strip : Bool) (cfg : List (List Char × JsonVal)) :
    Bool :=
  let d := !no_strip
  match (cfg.find? (fun e => decide (e.1 = "post_strip".toList))).map
      (fun e => e.2) with
  | some v => v.toBool
  | none => d

/-- Per-reference outcome of the orchestration loop in `main`:
the `try`/`except subprocess.CalledProcessError`/`except Exception` arms. -/
inductive ItemOutcome
  | success
  | syncFailure
  | unexpectedError
deriving DecidableEq, Repr

/-- One iteration of `main`'s loop over playlist references: resolve the
name, build `base_dir / name`, run the sync step, catch a failure and
abandon the reference, on success run the post-processor when enabled. -/
def processOne (api scrape : List Char → Option (List Char))
    (spotdl : List Char → List Char → Option SyncExn)
    (ffmpeg : FileKey → FfmpegResult)
    (base_dir : Path) (do_post_strip dry_run : Bool)
    (w : World) (url : List Char) : ItemOutcome × World :=
  let name := resolve_playlist_name api scrape url
  let folder := base_dir ++ [name]
  match run_spotdl_sync_into_folder spotdl url folder name dry_run w with
  | (Except.error (SyncExn.calledProcessError _), w1) =>
    (ItemOutcome.syncFailure, w1)
  | (Except.error SyncExn.other, w1) => (ItemOutcome.unexpectedError, w1)
  | (Except.ok _, w1) =>
    if do_post_strip then
      (ItemOutcome.success,
        { w1 with
          files := strip_mp3_metadata_in_folder ffmpeg folder dry_run
            w1.files })
    else (ItemOutcome.success, w1)

/-- `main`'s `for url in lines` loop: strictly sequential, one outcome per
reference, never aborted by a per-item failure. -/
def mainLoop (api scrape : List Char → Option (List Char))
    (spotdl : List Char → List Char → Option SyncExn)
    (ffmpeg : FileKey → FfmpegResult)
    (base_dir : Path) (do_post_strip dry_run : Bool) :
    List (List Char) → World → List ItemOutcome × World
  | [], w => ([], w)
  | url :: rest, w =>
    let r := processOne api scrape spotdl ffmpeg base_dir do_post_strip
      dry_run w url
    let rs := mainLoop api scrape spotdl ffmpeg base_dir do_post_strip
      dry_run rest r.2
    (r.1 :: rs.1, rs.2)

/-- Reading the playlists file in `main`:
`[ln.strip() for ln in fh if ln.strip() and not ln.strip().startswith("#")]`.
-/
def parseLines (lines : List (List Char)) : List (List Char) :=
  lines.filterMap (fun ln =>
    let t := pyStrip ln
    if !t.isEmpty && !(t.head? == some '#') then some t else none)

/-- No two adjacent whitespace characters: the shape invariant produced by
the whitespace-collapsing substitution of `sanitize_filename`. -/
abbrev NoTwoSpaces (a b : Char) : Prop :=
  ¬(isSpaceChar a = true ∧ isSpaceChar b = true)

/-- `main()` from `sync_spotify.py`, from the existence check of the
playlists file onward: exit code 1 when the file is missing, otherwise
create the base directory, filter the lines, run the loop and exit 0.
Per-item failures never change the exit code. -/
def main (api scrape : List Char → Option (List Char))
    (spotdl : List Char → List Char → Option SyncExn)
    (ffmpeg : FileKey → FfmpegResult)
    (playlists_file_exists : Bool) (lines : List (List Char))
    (base_dir : Path) (no_strip dry_run : Bool)
    (cfg : List (List Char × JsonVal)) (w : World) :
    List ItemOutcome × World × Nat :=
  if !playlists_file_exists then ([], w, 1)
  else
    let do_post_strip := decide_post_strip no_strip cfg
    let w1 : World := { w with dirs := mkdirParents base_dir w.dirs }
    let refs := parseLines lines
    let r := mainLoop api scrape spotdl ffmpeg base_dir do_post_strip dry_run
      refs w1
    (r.1, r.2, 0)

/-! ## File-store lemmas -/

theorem lookupFile_removeFile_self (k : FileKey) (fs : Files) :
    lookupFile k (removeFile k fs) = none := by
  induction fs with
  | nil => rfl
  | cons e t ih =>
    simp only [removeFile, lookupFile, List.filter_cons] at ih ⊢
    by_cases he : e.1 = k
    · rw [if_neg (by simp [he])]
      exact ih
    · rw [if_pos (by simp [he]), List.find?_cons_of_neg _ (by simp [he])]
      exact ih

theorem lookupFile_removeFile_ne {k' k : FileKey} (fs : Files)
    (h : k' ≠ k) : lookupFile k' (removeFile k fs) = lookupFile k' fs := by
  induction fs with
  | nil => rfl
  | cons e t ih =>
    simp only [removeFile, lookupFile, List.filter_cons] at ih ⊢
    by_cases he : e.1 = k
    · have h2 : ¬(e.1 = k') := by rw [he]; exact fun hh => h hh.symm
      rw [if_neg (by simp [he]), List.find?_cons_of_neg _ (by simp [h2])]
      exact ih
    · rw [if_pos (by simp [he])]
      by_cases he' : e.1 = k'
      · rw [List.find?_cons_of_pos _ (by simp [he']),
          List.find?_cons_of_pos _ (by simp [he'])]
      · rw [List.find?_cons_of_neg _ (by simp [he']),
          List.find?_cons_of_neg _ (by simp [he'])]
        exact ih

theorem lookupFile_setFile_self (k : FileKey) (v : List Char) (fs : Files) :
    lookupFile k (setFile k v fs) = some v := by
  simp [setFile, lookupFile, List.find?]

theorem lookupFile_setFile_ne {k' k : FileKey} (v : List Char) (fs : Files)
    (h : k' ≠ k) : lookupFile k' (setFile k v fs) = lookupFile k' fs := by
  have h2 : ¬((k, v).1 = k') := fun hh => h hh.symm
  have step : lookupFile k' (setFile k v fs) =
      lookupFile k' (removeFile k fs) := by
    simp only [setFile, lookupFile]
    rw [List.find?_cons_of_neg _ (by simp [h2])]
  rw [step]
  exact lookupFile_removeFile_ne fs h

theorem tmpKey_ne (k : FileKey) : tmpKey k ≠ k := by
  intro h
  have h2 : k.2 ++ ".tmp.mp3".toList = k.2 := congrArg Prod.snd h
  have h3 := congrArg List.length h2
  simp at h3

/-! ## Claim theorems: save name, working directory, config precedence -/

/-- C5: the claim says the `.spotdl` suffix is appended to the resolved name
only when not already present.  In the source the `endswith` guard is tested
on `save_name = f"{playlist_name}.spotdl"`, i.e. after the suffix has already
been appended, so it can never fire: a resolved name already ending in
`.spotdl` receives a second suffix.  Evaluated at the failing input
`"X.spotdl"`. -/
theorem c5_save_name_double_suffix :
    make_save_name "X.spotdl".toList = "X.spotdl.spotdl".toList ∧
    make_save_name "X.spotdl".toList ≠ "X.spotdl".toList := by
  constructor
  · rfl
  · decide

/-- C6: on every execution path of the sync step — dry-run early return,
normal return, and either exception raised by the external invocation — the
working directory in effect before the step is restored when the step
completes (`try`/`finally` in the source). -/
theorem c6_cwd_restored
    (spotdl : List Char → List Char → Option SyncExn)
    (playlist_url : List Char) (folder : Path) (playlist_name : List Char)
    (dry_run : Bool) (w : World) :
    ((run_spotdl_sync_into_folder spotdl playlist_url folder playlist_name
        dry_run w).2).cwd = w.cwd := rfl

/-- C9: the post-processing decision defaults to enabled, the `--no-strip`
flag disables it, and a `post_strip` key in the tool config determines the
decision regardless of the flag: (1) a `post_strip` entry found in the
config decides by its truthiness whatever the flag says; (2) `post_strip:
false` with no flag disables; (3) the flag with no config key disables;
(4) no flag and no key defaults to enabled. -/
theorem c9_post_strip_precedence :
    (∀ (no_strip : Bool) (cfg : List (List Char × JsonVal))
        (e : List Char × JsonVal),
      cfg.find? (fun e => decide (e.1 = "post_strip".toList)) = some e →
      decide_post_strip no_strip cfg = e.2.toBool) ∧
    decide_post_strip false [("post_strip".toList, JsonVal.jbool false)]
      = false ∧
    decide_post_strip true [] = false ∧
    decide_post_strip false [] = true := by
  refine ⟨fun no_strip cfg e h => ?_, rfl, rfl, rfl⟩
  simp only [decide_post_strip]
  rw [h]
  rfl

/-- Witness for C9: the config key overrides an explicit `--no-strip` flag. -/
theorem c9_post_strip_precedence_witness :
    decide_post_strip true [("post_strip".toList, JsonVal.jbool true)]
      = true :=
  c9_post_strip_precedence.1 true
    [("post_strip".toList, JsonVal.jbool true)]
    ("post_strip".toList, JsonVal.jbool true) rfl

/-- C10: with the dry-run flag set, the destination folder and all of its
ancestors are still created before the sync step returns
(`Path(folder).mkdir(parents=True, exist_ok=True)` runs before the dry-run
check), and no external tool is invoked (the result does not depend on the
sync-tool oracle at all). -/
theorem c10_dry_run_creates_folder
    (spotdl spotdl' : List Char → List Char → Option SyncExn)
    (playlist_url : List Char) (folder : Path) (playlist_name : List Char)
    (w : World) :
    (∀ k, k < folder.length →
      folder.take (k + 1) ∈
        ((run_spotdl_sync_into_folder spotdl playlist_url folder
            playlist_name true w).2).dirs) ∧
    run_spotdl_sync_into_folder spotdl playlist_url folder playlist_name
        true w =
      run_spotdl_sync_into_folder spotdl' playlist_url folder playlist_name
        true w := by
  refine ⟨fun k hk => ?_, rfl⟩
  show folder.take (k + 1) ∈ mkdirParents folder w.dirs
  simp only [mkdirParents, List.mem_append, List.mem_map, List.mem_range]
  exact Or.inl ⟨k, hk, rfl⟩

/-- Witness for C10: a concrete dry run creates the parent `Music` directory
of the destination `Music/Spotify`. -/
theorem c10_dry_run_creates_folder_witness :
    ["Music".toList, "Spotify".toList].take 1 ∈
      ((run_spotdl_sync_into_folder (fun _ _ => none) "u".toList
          ["Music".toList, "Spotify".toList] "n".toList true
          ⟨[], [], []⟩).2).dirs :=
  (c10_dry_run_creates_folder (fun _ _ => none) (fun _ _ => none) "u".toList
    ["Music".toList, "Spotify".toList] "n".toList ⟨[], [], []⟩).1 0
    (by decide)

/-! ## Claim theorems: identifier extraction, batch isolation, post-processor -/

/-- C8: identifier extraction is total by construction (a Lean function on
arbitrary `List Char` input); for the reference
`https://open.spotify.com/playlist/ABC123?si=xyz` it yields `ABC123`; and
for input that matches neither playlist pattern and is not a bare
alphanumeric token, the raw input is returned unchanged. -/
theorem c8_extract_playlist_id :
    (extract_playlist_id
        "https://open.spotify.com/playlist/ABC123?si=xyz".toList
      = "ABC123".toList) ∧
    ∀ s : List Char,
      reSearchGroup ["playlist/".toList, "playlist:".toList] s = none →
      reSearchGroup ["open.spotify.com/playlist/".toList] s = none →
      ¬(s ≠ [] ∧ s.all isAlnum = true) →
      extract_playlist_id s = s := by
  constructor
  · decide
  · intro s h1 h2 _
    unfold extract_playlist_id
    rw [h1, h2]
    dsimp only
    split <;> rfl

/-- Witness for C8: a non-matching, non-alphanumeric input is returned
verbatim. -/
theorem c8_extract_playlist_id_witness :
    extract_playlist_id "@@".toList = "@@".toList :=
  c8_extract_playlist_id.2 "@@".toList (by decide) (by decide) (by decide)

/-- C1: batch isolation in `main`'s orchestration loop.
(1) Whenever the playlists file exists, `main` finishes with exit code 0, for
every choice of oracles, inputs and initial state — per-item sync failures
never change the exit code.
(2) The loop produces exactly one outcome per reference: no failure aborts
the remaining references.
(3) For three references where only the second fails (the external tool
returns non-zero), the outcomes are success, sync-failure, success, and the
exit code is 0. -/
theorem c1_batch_isolation :
    (∀ (api scrape : List Char → Option (List Char))
        (spotdl : List Char → List Char → Option SyncExn)
        (ffmpeg : FileKey → FfmpegResult)
        (lines : List (List Char)) (base_dir : Path)
        (no_strip dry_run : Bool) (cfg : List (List Char × JsonVal))
        (w : World),
      (main api scrape spotdl ffmpeg true lines base_dir no_strip dry_run
        cfg w).2.2 = 0) ∧
    (∀ (api scrape : List Char → Option (List Char))
        (spotdl : List Char → List Char → Option SyncExn)
        (ffmpeg : FileKey → FfmpegResult)
        (base_dir : Path) (do_post_strip dry_run : Bool)
        (refs : List (List Char)) (w : World),
      (mainLoop api scrape spotdl ffmpeg base_dir do_post_strip dry_run
        refs w).1.length = refs.length) ∧
    ((main (fun _ => none) (fun _ => none)
        (fun u _ =>
          if u = "https://open.spotify.com/playlist/BBB".toList then
            some (SyncExn.calledProcessError 1)
          else none)
        (fun _ => FfmpegResult.failure none) true
        ["https://open.spotify.com/playlist/AAA?si=1".toList,
         "https://open.spotify.com/playlist/BBB?si=2".toList,
         "https://open.spotify.com/playlist/CCC?si=3".toList]
        ["Music".toList] false false [] ⟨[], [], []⟩).1
        = [ItemOutcome.success, ItemOutcome.syncFailure,
           ItemOutcome.success] ∧
      (main (fun _ => none) (fun _ => none)
        (fun u _ =>
          if u = "https://open.spotify.com/playlist/BBB".toList then
            some (SyncExn.calledProcessError 1)
          else none)
        (fun _ => FfmpegResult.failure none) true
        ["https://open.spotify.com/playlist/AAA?si=1".toList,
         "https://open.spotify.com/playlist/BBB?si=2".toList,
         "https://open.spotify.com/playlist/CCC?si=3".toList]
        ["Music".toList] false false [] ⟨[], [], []⟩).2.2 = 0) := by
  refine ⟨fun _ _ _ _ _ _ _ _ _ _ => rfl, fun api scrape spotdl ffmpeg
    base_dir dps dr refs w => ?_, by decide, rfl⟩
  induction refs generalizing w with
  | nil => rfl
  | cons u rest ih =>
    simp only [mainLoop, List.length_cons]
    rw [ih]

/-- C4: per-file post-processing.
(1) When the strip tool fails on a file, the original file's content is
unchanged and no temporary output remains.
(2) When the strip tool succeeds, the original is replaced by the stripped
temporary output and the temporary file no longer exists.
(3) Batch continuation at a concrete three-file folder where only `b.mp3`
fails: `a.mp3` and `c.mp3` are still stripped, `b.mp3` keeps its original
content, and no temporary file remains. -/
theorem c4_strip_per_file_isolation :
    (∀ (ffmpeg : FileKey → FfmpegResult) (k : FileKey) (fs : Files)
        (leftover : Option (List Char)),
      ffmpeg k = FfmpegResult.failure leftover →
      lookupFile k (processMp3File ffmpeg k fs) = lookupFile k fs ∧
      lookupFile (tmpKey k) (processMp3File ffmpeg k fs) = none) ∧
    (∀ (ffmpeg : FileKey → FfmpegResult) (k : FileKey) (fs : Files)
        (out : List Char),
      ffmpeg k = FfmpegResult.success out →
      lookupFile k (processMp3File ffmpeg k fs) = some out ∧
      lookupFile (tmpKey k) (processMp3File ffmpeg k fs) = none) ∧
    (let ffmpeg : FileKey → FfmpegResult := fun k =>
        if k.2 = "b.mp3".toList then FfmpegResult.failure (some "X".toList)
        else FfmpegResult.success "S".toList
     let dir : Path := ["M".toList]
     let fs0 : Files :=
       [((dir, "a.mp3".toList), "A".toList),
        ((dir, "b.mp3".toList), "B".toList),
        ((dir, "c.mp3".toList), "C".toList)]
     let r := strip_mp3_metadata_in_folder ffmpeg dir false fs0
     lookupFile (dir, "a.mp3".toList) r = some "S".toList ∧
     lookupFile (dir, "b.mp3".toList) r = some "B".toList ∧
     lookupFile (dir, "c.mp3".toList) r = some "S".toList ∧
     lookupFile (tmpKey (dir, "a.mp3".toList)) r = none ∧
     lookupFile (tmpKey (dir, "b.mp3".toList)) r = none ∧
     lookupFile (tmpKey (dir, "c.mp3".toList)) r = none) := by
  refine ⟨fun ffmpeg k fs leftover h => ?_, fun ffmpeg k fs out h => ?_,
    by decide⟩
  · cases leftover with
    | none =>
      simp only [processMp3File, h]
      exact ⟨lookupFile_removeFile_ne fs (Ne.symm (tmpKey_ne k)),
        lookupFile_removeFile_self _ _⟩
    | some cpart =>
      simp only [processMp3File, h]
      constructor
      · rw [lookupFile_removeFile_ne _ (Ne.symm (tmpKey_ne k))]
        exact lookupFile_setFile_ne _ _ (Ne.symm (tmpKey_ne k))
      · exact lookupFile_removeFile_self _ _
  · simp only [processMp3File, h, moveFile]
    rw [lookupFile_setFile_self]
    constructor
    · exact lookupFile_setFile_self _ _ _
    · rw [lookupFile_setFile_ne _ _ (tmpKey_ne k)]
      exact lookupFile_removeFile_self _ _

/-- Witness for C4: a concrete failing strip invocation leaves the single
file `a.mp3` unchanged. -/
theorem c4_strip_per_file_isolation_witness :
    lookupFile ((["M".toList], "a.mp3".toList))
      (processMp3File (fun _ => FfmpegResult.failure none)
        ((["M".toList], "a.mp3".toList))
        [(((["M".toList], "a.mp3".toList)), "A".toList)])
      = some "A".toList :=
  ((c4_strip_per_file_isolation.1 (fun _ => FfmpegResult.failure none)
    ((["M".toList], "a.mp3".toList))
    [(((["M".toList], "a.mp3".toList)), "A".toList)] none rfl).1).trans
    (by decide)

/-! ## Sanitizer lemmas -/

theorem space_eq_space_of_not_bad {c : Char} (h1 : isSpaceChar c = true)
    (h2 : isBadChar c = false) : c = ' ' := by
  have h1' : c = ' ' ∨ c = '\t' ∨ c = '\n' ∨ c = '\x0b' ∨ c = '\x0c' ∨
      c = '\r' := by
    simpa [isSpaceChar, Bool.or_eq_true, beq_iff_eq, or_assoc] using h1
  rcases h1' with h | h | h | h | h | h
  · exact h
  all_goals (subst h; exact absurd h2 (by decide))

theorem mem_of_mem_pyStrip {c : Char} {l : List Char}
    (h : c ∈ pyStrip l) : c ∈ l := by
  unfold pyStrip at h
  have hp := List.rdropWhile_prefix isSpaceChar (l.dropWhile isSpaceChar)
  have h1 := hp.sublist.subset h
  exact (List.dropWhile_suffix isSpaceChar).sublist.subset h1

theorem mem_collapseWS :
    ∀ (l : List Char) (c : Char), c ∈ collapseWS l → c = ' ' ∨ c ∈ l
  | [], _, h => by simp [collapseWS] at h
  | [d], c, h => by
    simp only [collapseWS] at h
    split at h
    · simp only [List.mem_singleton] at h
      exact Or.inl h
    · simp only [List.mem_singleton] at h
      exact Or.inr (by simp [h])
  | a :: b :: rest, c, h => by
    simp only [collapseWS] at h
    split at h
    · rcases mem_collapseWS (b :: rest) c h with h' | h'
      · exact Or.inl h'
      · exact Or.inr (List.mem_cons_of_mem _ h')
    · rcases List.mem_cons.mp h with h' | h'
      · subst h'
        split
        · exact Or.inl rfl
        · exact Or.inr (List.mem_cons_self _ _)
      · rcases mem_collapseWS (b :: rest) c h' with h'' | h''
        · exact Or.inl h''
        · exact Or.inr (List.mem_cons_of_mem _ h'')

theorem head?_collapseWS :
    ∀ (l : List Char),
      (collapseWS l).head? =
        l.head?.map (fun c => if isSpaceChar c then ' ' else c)
  | [] => rfl
  | [c] => by
    simp only [collapseWS]
    split <;> simp [*]
  | a :: b :: rest => by
    simp only [collapseWS]
    split
    · rename_i h
      obtain ⟨ha, hb⟩ : isSpaceChar a = true ∧ isSpaceChar b = true := by
        simpa [Bool.and_eq_true] using h
      rw [head?_collapseWS (b :: rest)]
      simp [ha, hb]
    · simp

theorem chain'_collapseWS :
    ∀ (l : List Char), List.Chain' NoTwoSpaces (collapseWS l)
  | [] => List.chain'_nil
  | [c] => by
    simp only [collapseWS]
    split <;> exact List.chain'_singleton _
  | a :: b :: rest => by
    simp only [collapseWS]
    split
    · exact chain'_collapseWS (b :: rest)
    · rename_i h
      refine List.chain'_cons'.mpr ⟨?_, chain'_collapseWS (b :: rest)⟩
      intro y hy
      rw [head?_collapseWS (b :: rest)] at hy
      have hy' : y = if isSpaceChar b = true then ' ' else b := by
        simp only [List.head?_cons, Option.map_some', Option.mem_def,
          Option.some.injEq] at hy
        exact hy.symm
      subst hy'
      by_cases ha : isSpaceChar a = true
      · have hb : isSpaceChar b = false := by
          rcases Bool.and_eq_false_iff.mp (by simpa using h) with hh | hh
          · rw [ha] at hh
            cases hh
          · exact hh
        simp [NoTwoSpaces, ha, hb]
      · simp [NoTwoSpaces, ha]

theorem collapseWS_eq_self :
    ∀ (l : List Char), (∀ c ∈ l, isSpaceChar c = true → c = ' ') →
      List.Chain' NoTwoSpaces l → collapseWS l = l
  | [], _, _ => rfl
  | [c], h, _ => by
    simp only [collapseWS]
    split
    · rename_i hs
      rw [h c (by simp) hs]
    · rfl
  | a :: b :: rest, h, hch => by
    simp only [collapseWS]
    split
    · rename_i hs
      obtain ⟨ha, hb⟩ : isSpaceChar a = true ∧ isSpaceChar b = true := by
        simpa [Bool.and_eq_true] using hs
      exact absurd ⟨ha, hb⟩ (List.chain'_cons.mp hch).1
    · have tail := collapseWS_eq_self (b :: rest)
        (fun c hc => h c (List.mem_cons_of_mem _ hc))
        (List.chain'_cons.mp hch).2
      rw [tail]
      by_cases ha : isSpaceChar a = true
      · rw [if_pos ha, h a (by simp) ha]
      · rw [if_neg ha]

theorem collapseWS_all_space :
    ∀ (l : List Char), (∀ c ∈ l, isSpaceChar c = true) →
      collapseWS l = [] ∨ collapseWS l = [' ']
  | [], _ => Or.inl rfl
  | [c], h => by
    simp only [collapseWS, if_pos (h c (by simp))]
    exact Or.inr trivial
  | a :: b :: rest, h => by
    have hab : (isSpaceChar a && isSpaceChar b) = true := by
      simp [h a (by simp), h b (by simp)]
    simp only [collapseWS, if_pos hab]
    exact collapseWS_all_space (b :: rest)
      (fun c hc => h c (List.mem_cons_of_mem _ hc))

theorem head?_pyStrip_not_space (l : List Char) :
    ∀ c, (pyStrip l).head? = some c → isSpaceChar c = false := by
  intro c hc
  have hpre := List.rdropWhile_prefix isSpaceChar (l.dropWhile isSpaceChar)
  obtain ⟨t, ht⟩ := hpre
  have hm : (l.dropWhile isSpaceChar).head? = some c := by
    rw [← ht, List.head?_append]
    unfold pyStrip at hc
    rw [hc]
    rfl
  have hd := List.head?_dropWhile_not isSpaceChar l
  rw [hm] at hd
  exact hd

theorem getLast?_pyStrip_not_space (l : List Char) :
    ∀ c, (pyStrip l).getLast? = some c → isSpaceChar c = false := by
  intro c hc
  unfold pyStrip at hc
  have hne : List.rdropWhile isSpaceChar (l.dropWhile isSpaceChar) ≠ [] := by
    intro h0
    rw [h0] at hc
    cases hc
  have hlast := List.rdropWhile_last_not
    (p := isSpaceChar) (l := l.dropWhile isSpaceChar) hne
  rw [List.getLast?_eq_getLast _ hne] at hc
  rw [Option.some.inj hc] at hlast
  simpa using hlast

theorem chain'_pyStrip {l : List Char} (h : List.Chain' NoTwoSpaces l) :
    List.Chain' NoTwoSpaces (pyStrip l) := by
  have hp := List.rdropWhile_prefix isSpaceChar (l.dropWhile isSpaceChar)
  exact List.Chain'.prefix (h.suffix (List.dropWhile_suffix _)) hp

theorem pyStrip_eq_self {l : List Char}
    (h1 : ∀ c, l.head? = some c → isSpaceChar c = false)
    (h2 : ∀ c, l.getLast? = some c → isSpaceChar c = false) :
    pyStrip l = l := by
  unfold pyStrip
  have hd : l.dropWhile isSpaceChar = l := by
    cases l with
    | nil => rfl
    | cons a t =>
      rw [List.dropWhile_cons, if_neg]
      simp [h1 a rfl]
  rw [hd, List.rdropWhile_eq_self_iff]
  intro hl
  have := h2 (l.getLast hl) (List.getLast?_eq_getLast l hl)
  simp [this]

theorem sanitize_filename_not_bad {s : List Char} {ml : Nat} {c : Char}
    (h : c ∈ sanitize_filename s ml) : isBadChar c = false := by
  simp only [sanitize_filename] at h
  split at h
  · have hall : "Playlist".toList.all (fun c => !isBadChar c) = true := by
      decide
    simpa using List.all_eq_true.mp hall c h
  · have h3 := List.take_subset _ _ h
    have h4 := mem_of_mem_pyStrip h3
    rcases mem_collapseWS _ c h4 with h5 | h5
    · subst h5
      decide
    · simpa using (List.mem_filter.mp h5).2

theorem sanitize_filename_ne_nil (s : List Char) (ml : Nat) :
    sanitize_filename s ml ≠ [] := by
  simp only [sanitize_filename]
  split
  · decide
  · rename_i hcond
    simpa [List.isEmpty_iff] using hcond

theorem sanitize_filename_length_le (s : List Char) :
    (sanitize_filename s).length ≤ 200 := by
  simp only [sanitize_filename]
  split
  · decide
  · exact List.length_take_le _ _

theorem chain'_sanitize_filename (s : List Char) (ml : Nat) :
    List.Chain' NoTwoSpaces (sanitize_filename s ml) := by
  simp only [sanitize_filename]
  split
  · simp +decide [List.chain'_cons, List.chain'_singleton, NoTwoSpaces]
  · have hp := List.take_prefix ml (pyStrip (collapseWS
      ((pyStrip s).filter (fun c => !isBadChar c))))
    exact List.Chain'.prefix (chain'_pyStrip (chain'_collapseWS _)) hp

theorem head?_sanitize_not_space (s : List Char) (ml : Nat) :
    ∀ c, (sanitize_filename s ml).head? = some c → isSpaceChar c = false := by
  simp only [sanitize_filename]
  split
  · intro c hc
    have := Option.some.inj hc
    rw [← this]
    decide
  · intro c hc
    rw [List.head?_take] at hc
    split at hc
    · cases hc
    · exact head?_pyStrip_not_space _ c hc

theorem sanitize_filename_all_space_bad {s : List Char}
    (h : ∀ c ∈ s, isSpaceChar c = true ∨ isBadChar c = true) :
    sanitize_filename s = "Playlist".toList := by
  have hs2 : ∀ c ∈ (pyStrip s).filter (fun c => !isBadChar c),
      isSpaceChar c = true := by
    intro c hc
    have h1 := List.mem_filter.mp hc
    have hcin := mem_of_mem_pyStrip h1.1
    have hnb : isBadChar c = false := by simpa using h1.2
    rcases h c hcin with hsp | hbd
    · exact hsp
    · rw [hbd] at hnb
      cases hnb
  have h3 : pyStrip (collapseWS
      ((pyStrip s).filter (fun c => !isBadChar c))) = [] := by
    rcases collapseWS_all_space _ hs2 with h0 | h0 <;> rw [h0]
    · rfl
    · decide
  simp only [sanitize_filename]
  rw [h3]
  rfl

/-! ## Claim theorems: sanitizer and name resolution -/

/-- C3: sanitizer contract — for every input, the output contains none of
the removed characters `<>:"/\|?*` and no control characters (that is,
`isBadChar` holds of no output character), its length is at most 200, it is
never empty, and an input consisting only of whitespace and removed
characters (including the empty input) yields the fixed placeholder
`"Playlist"`. -/
theorem c3_sanitize_contract (s : List Char) :
    (∀ c ∈ sanitize_filename s, isBadChar c = false) ∧
    (sanitize_filename s).length ≤ 200 ∧
    sanitize_filename s ≠ [] ∧
    ((∀ c ∈ s, isSpaceChar c = true ∨ isBadChar c = true) →
      sanitize_filename s = "Playlist".toList) :=
  ⟨fun _ hc => sanitize_filename_not_bad hc,
   sanitize_filename_length_le s,
   sanitize_filename_ne_nil s 200,
   fun h => sanitize_filename_all_space_bad h⟩

/-- Witness for C3: a whitespace-and-removed-characters input yields the
placeholder. -/
theorem c3_sanitize_contract_witness :
    sanitize_filename " <".toList = "Playlist".toList :=
  (c3_sanitize_contract " <".toList).2.2.2 (by decide)

set_option maxRecDepth 4000 in
/-- C2, counterexample: the sanitizer is not idempotent at the default
length bound.  For 199 `a`s followed by `" b"`, truncation to 200
characters cuts after the space, so the first application ends in a space
and the second application strips it. -/
theorem c2_sanitize_idempotent_counterexample :
    sanitize_filename
        (sanitize_filename (List.replicate 199 'a' ++ [' ', 'b'])) ≠
      sanitize_filename (List.replicate 199 'a' ++ [' ', 'b']) := by
  decide

/-- C2, amended: the sanitizer is idempotent on every input whose sanitized
form does not end in a space.  (Truncation to the length bound can expose a
trailing space, which a second application strips — the counterexample
above; this is the only failure of idempotence.) -/
theorem c2_sanitize_idempotent_amended (s : List Char)
    (h : (sanitize_filename s).getLast? ≠ some ' ') :
    sanitize_filename (sanitize_filename s) = sanitize_filename s := by
  set r := sanitize_filename s with hr
  have hnb : ∀ c ∈ r, isBadChar c = false :=
    fun _ hc => sanitize_filename_not_bad hc
  have hch : List.Chain' NoTwoSpaces r := chain'_sanitize_filename s 200
  have hhead : ∀ c, r.head? = some c → isSpaceChar c = false :=
    head?_sanitize_not_space s 200
  have hlast : ∀ c, r.getLast? = some c → isSpaceChar c = false := by
    intro c hc
    have hm : c ∈ r := List.mem_of_getLast?_eq_some hc
    by_contra hsp
    have hsp' : isSpaceChar c = true := by
      simpa using hsp
    have hcsp : c = ' ' := space_eq_space_of_not_bad hsp' (hnb c hm)
    rw [hcsp] at hc
    exact h hc
  have hlen : r.length ≤ 200 := sanitize_filename_length_le s
  have hne : r ≠ [] := sanitize_filename_ne_nil s 200
  have h1 : pyStrip r = r := pyStrip_eq_self hhead hlast
  have h2 : r.filter (fun c => !isBadChar c) = r :=
    List.filter_eq_self.mpr (fun c hc => by simp [hnb c hc])
  have h3 : collapseWS r = r :=
    collapseWS_eq_self r
      (fun c hc hs => space_eq_space_of_not_bad hs (hnb c hc)) hch
  show sanitize_filename r = r
  simp only [sanitize_filename]
  rw [h1, h2, h3, h1, List.take_of_length_le hlen, if_neg]
  simp [List.isEmpty_iff, hne]

/-- Witness for C2 (amended): a sanitized name not ending in a space is a
fixed point. -/
theorem c2_sanitize_idempotent_amended_witness :
    (sanitize_filename "My Mix".toList).getLast? ≠ some ' ' ∧
    sanitize_filename (sanitize_filename "My Mix".toList) =
      sanitize_filename "My Mix".toList :=
  ⟨by decide, c2_sanitize_idempotent_amended "My Mix".toList (by decide)⟩

/-- C7: when both remote tiers yield no result, `resolve_playlist_name`
returns the sanitized extracted identifier, which is never the empty
string. -/
theorem c7_resolve_fallback (api scrape : List Char → Option (List Char))
    (u : List Char)
    (h1 : api (extract_playlist_id u) = none)
    (h2 : scrape (extract_playlist_id u) = none) :
    resolve_playlist_name api scrape u =
      sanitize_filename (extract_playlist_id u) ∧
    resolve_playlist_name api scrape u ≠ [] := by
  have heq : resolve_playlist_name api scrape u =
      sanitize_filename (extract_playlist_id u) := by
    simp only [resolve_playlist_name]
    rw [h1, h2]
    simp [truthy]
  exact ⟨heq, heq ▸ sanitize_filename_ne_nil _ 200⟩

/-- Witness for C7: with both tiers failing, a bare identifier resolves to
its own sanitized form. -/
theorem c7_resolve_fallback_witness :
    resolve_playlist_name (fun _ => none) (fun _ => none) "ABC".toList =
      sanitize_filename (extract_playlist_id "ABC".toList) :=
  (c7_resolve_fallback (fun _ => none) (fun _ => none) "ABC".toList
    rfl rfl).1

end SyncSpotify
